import Mathlib

/-!
# Verification of the OSS signed-URL client (src/src/lib.rs)

A shallow embedding of the Rust OSS client library: the canonical signing
string (`get_to_be_signed`), HMAC-SHA1 signing (`calc_hmac_sha1`, modelling
the `crypto` crate's documented HMAC/SHA-1 algorithm), base64 (`to_base64`,
modelling the `base64` crate's standard padded encoding), percent-encoding
(modelling the `urlencoding` crate), signed-URL assembly
(`OSSClient.generate_signed_url`), JSON-based construction
(`OSSClient.from_json`, over parsed JSON values of the `json` crate's data
model), and the HTTP operation wrappers.

Rust `u64` arithmetic is modelled on `Nat` with explicit reduction
modulo `2 ^ 64` where overflow can occur.  Rust strings are modelled as
Lean `String`s; their raw bytes are recovered by the UTF-8 encoder
`strBytes`.  External effects (current time, the HTTP collaborator, file
contents) are passed as explicit parameters.
-/

namespace OSS

/-- UTF-8 encoding of a single Unicode code point (as byte values `< 256`),
the raw-byte model of one Rust `char`. -/
def utf8Bytes (c : Nat) : List Nat :=
  if c < 128 then [c]
  else if c < 2048 then [192 + c / 64, 128 + c % 64]
  else if c < 65536 then [224 + c / 4096, 128 + (c / 64) % 64, 128 + c % 64]
  else [240 + c / 262144, 128 + (c / 4096) % 64, 128 + (c / 64) % 64, 128 + c % 64]

/-- The raw UTF-8 bytes of a string: the model of Rust `str::as_bytes`. -/
def strBytes (s : String) : List Nat :=
  s.data.flatMap (fun ch => utf8Bytes ch.toNat)

/-- Build a string from a list of ASCII byte values (used for the outputs of
base64 and percent-encoding, which are always ASCII). -/
def asciiString (bs : List Nat) : String :=
  ⟨bs.map Char.ofNat⟩

/-- Model of `get_to_be_signed` (src/src/lib.rs lines 171-184): the canonical
string built by successive `push_str` calls:
verb, `\n`, `\n`, `\n`, decimal expiry, `\n`, `/`, bucket, `/`, key. -/
def get_to_be_signed (verb : String) (expire_secs : Nat)
    (bucket_name : String) (key : String) : String :=
  let s0 := "" ++ verb
  let s1 := s0 ++ "\n"
  let s2 := s1 ++ "\n"
  let s3 := s2 ++ "\n"
  let s4 := s3 ++ toString expire_secs
  let s5 := s4 ++ "\n"
  let s6 := s5 ++ "/"
  let s7 := s6 ++ bucket_name
  let s8 := s7 ++ "/"
  s8 ++ key

/-- Model of `let expire_secs = current_secs + expire_in_seconds`
(src/src/lib.rs line 155): Rust `u64` addition, wrapping modulo `2 ^ 64`. -/
def expire_secs (current_secs expire_in_seconds : Nat) : Nat :=
  (current_secs + expire_in_seconds) % (2 ^ 64)

/-! ## SHA-1 (FIPS 180-1), the digest primitive of the `crypto` crate's
`Sha1`, modelled on `Nat` with explicit reduction modulo `2 ^ 32`. -/

/-- Reduce to a 32-bit word. -/
def w32 (n : Nat) : Nat := n % (2 ^ 32)

/-- Left rotation of a 32-bit word `x` by `k` bits (`0 < k < 32`). -/
def rotl (k x : Nat) : Nat := w32 (x * 2 ^ k) + x / 2 ^ (32 - k)

/-- Big-endian 32-bit words from a byte list (groups of four). -/
def bytesToWords : List Nat → List Nat
  | a :: b :: c :: d :: rest =>
      (a * 16777216 + b * 65536 + c * 256 + d) :: bytesToWords rest
  | _ => []

/-- Big-endian 4-byte serialization of a 32-bit word. -/
def wordBytes (w : Nat) : List Nat :=
  [w / 16777216 % 256, w / 65536 % 256, w / 256 % 256, w % 256]

/-- Extend the 16 message-schedule words by `n` further words
(`W[t] = ROTL1 (W[t-3] xor W[t-8] xor W[t-14] xor W[t-16])`). -/
def sha1Expand (ws : List Nat) : Nat → List Nat
  | 0 => ws
  | n + 1 =>
    let prev := sha1Expand ws n
    let t := prev.length
    prev ++ [rotl 1 ((prev.getD (t - 3) 0) ^^^ (prev.getD (t - 8) 0) ^^^
      (prev.getD (t - 14) 0) ^^^ (prev.getD (t - 16) 0))]

/-- The SHA-1 round function `f_t`. -/
def sha1F (t b c d : Nat) : Nat :=
  if t < 20 then (b &&& c) ||| ((b ^^^ 4294967295) &&& d)
  else if t < 40 then b ^^^ c ^^^ d
  else if t < 60 then (b &&& c) ||| (b &&& d) ||| (c &&& d)
  else b ^^^ c ^^^ d

/-- The SHA-1 round constant `K_t`. -/
def sha1K (t : Nat) : Nat :=
  if t < 20 then 0x5A827999
  else if t < 40 then 0x6ED9EBA1
  else if t < 60 then 0x8F1BBCDC
  else 0xCA62C1D6

/-- One SHA-1 round at index `t` on state `(a, b, c, d, e)`. -/
def sha1Round (W : List Nat) (t : Nat) (s : Nat × Nat × Nat × Nat × Nat) :
    Nat × Nat × Nat × Nat × Nat :=
  match s with
  | (a, b, c, d, e) =>
    (w32 (rotl 5 a + sha1F t b c d + e + sha1K t + W.getD t 0),
     a, rotl 30 b, c, d)

/-- Rounds `0 … n-1` of the SHA-1 compression loop. -/
def sha1Loop (W : List Nat) : Nat → Nat × Nat × Nat × Nat × Nat →
    Nat × Nat × Nat × Nat × Nat
  | 0, s => s
  | n + 1, s => sha1Round W n (sha1Loop W n s)

/-- SHA-1 compression of one 64-byte block into the running hash state. -/
def sha1Compress (h : Nat × Nat × Nat × Nat × Nat) (block : List Nat) :
    Nat × Nat × Nat × Nat × Nat :=
  let W := sha1Expand (bytesToWords block) 64
  match h, sha1Loop W 80 h with
  | (h0, h1, h2, h3, h4), (a, b, c, d, e) =>
    (w32 (h0 + a), w32 (h1 + b), w32 (h2 + c), w32 (h3 + d), w32 (h4 + e))

/-- Split a byte list into 64-byte chunks (fuel-driven so that the kernel
can evaluate it; the fuel `n` only needs to be at least the list length). -/
def chunks64Aux : Nat → List Nat → List (List Nat)
  | 0, _ => []
  | _ + 1, [] => []
  | n + 1, l => l.take 64 :: chunks64Aux n (l.drop 64)

/-- Split a byte list into 64-byte chunks. -/
def chunks64 (l : List Nat) : List (List Nat) := chunks64Aux l.length l

/-- SHA-1 padding: `0x80`, zeros to 56 mod 64, then the 64-bit big-endian
bit length. -/
def sha1Pad (msg : List Nat) : List Nat :=
  let padLen := (120 - (msg.length + 1) % 64) % 64
  let bitLen := msg.length * 8
  msg ++ [128] ++ List.replicate padLen 0 ++
    [bitLen / 2 ^ 56 % 256, bitLen / 2 ^ 48 % 256, bitLen / 2 ^ 40 % 256,
     bitLen / 2 ^ 32 % 256, bitLen / 2 ^ 24 % 256, bitLen / 2 ^ 16 % 256,
     bitLen / 2 ^ 8 % 256, bitLen % 256]

/-- The SHA-1 initial hash state. -/
def sha1Init : Nat × Nat × Nat × Nat × Nat :=
  (0x67452301, 0xEFCDAB89, 0x98BADCFE, 0x10325476, 0xC3D2E1F0)

/-- SHA-1 of a byte list: the 20-byte digest. -/
def sha1 (msg : List Nat) : List Nat :=
  let h := (chunks64 (sha1Pad msg)).foldl sha1Compress sha1Init
  wordBytes h.1 ++ wordBytes h.2.1 ++ wordBytes h.2.2.1 ++
    wordBytes h.2.2.2.1 ++ wordBytes h.2.2.2.2

/-! ## HMAC (RFC 2104) over SHA-1: the `crypto` crate's `Hmac::new(Sha1::new(), key)`
with block size 64. -/

/-- The HMAC key, hashed if longer than the 64-byte block and zero-padded
to 64 bytes. -/
def hmacKey (key : List Nat) : List Nat :=
  let k0 := if 64 < key.length then sha1 key else key
  k0 ++ List.replicate (64 - k0.length) 0

/-- Model of `calc_hmac_sha1` (src/src/lib.rs lines 190-194): the raw
20-byte HMAC-SHA1 MAC of `message` under `key`. -/
def calc_hmac_sha1 (key message : List Nat) : List Nat :=
  let k := hmacKey key
  sha1 ((k.map (fun b => b ^^^ 92)) ++ sha1 ((k.map (fun b => b ^^^ 54)) ++ message))

/-! ## base64 (RFC 4648 standard alphabet, padded): the `base64` crate's
`encode`. -/

/-- The standard base64 alphabet, as ASCII codes. -/
def b64Char (n : Nat) : Nat :=
  if n < 26 then 65 + n
  else if n < 52 then 97 + (n - 26)
  else if n < 62 then 48 + (n - 52)
  else if n = 62 then 43
  else 47

/-- Standard padded base64 of a byte list, as ASCII codes. -/
def base64Bytes : List Nat → List Nat
  | [] => []
  | [a] => [b64Char (a / 4), b64Char (a % 4 * 16), 61, 61]
  | [a, b] => [b64Char (a / 4), b64Char (a % 4 * 16 + b / 16), b64Char (b % 16 * 4), 61]
  | a :: b :: c :: rest =>
      b64Char (a / 4) :: b64Char (a % 4 * 16 + b / 16) ::
      b64Char (b % 16 * 4 + c / 64) :: b64Char (c % 64) :: base64Bytes rest

/-- Model of `to_base64` (src/src/lib.rs lines 186-188): `base64::encode`
of a raw MAC result. -/
def to_base64 (mac_result : List Nat) : String :=
  asciiString (base64Bytes mac_result)

/-! ## Percent-encoding: the `urlencoding` crate's `encode`, which keeps
ASCII alphanumerics and `-`, `_`, `.`, `~` and escapes every other byte
as `%XX` with uppercase hex. -/

/-- Is the byte kept verbatim by `urlencoding::encode`? -/
def isUnreserved (b : Nat) : Bool :=
  (65 ≤ b && b ≤ 90) || (97 ≤ b && b ≤ 122) || (48 ≤ b && b ≤ 57) ||
  b == 45 || b == 95 || b == 46 || b == 126

/-- Uppercase hex digit of a value `< 16`, as an ASCII code. -/
def hexDigit (n : Nat) : Nat := if n < 10 then 48 + n else 55 + n

/-- Percent-encode a byte list (output as ASCII codes). -/
def urlencodeBytes : List Nat → List Nat
  | [] => []
  | b :: rest =>
      (if isUnreserved b then [b] else [37, hexDigit (b / 16), hexDigit (b % 16)]) ++
      urlencodeBytes rest

/-- Model of `urlencoding::encode` on a string. -/
def urlencode (s : String) : String :=
  asciiString (urlencodeBytes (strBytes s))

/-- The numeric value of an ASCII hex digit. -/
def hexVal (c : Nat) : Nat :=
  if 48 ≤ c && c ≤ 57 then c - 48
  else if 65 ≤ c && c ≤ 70 then c - 55
  else if 97 ≤ c && c ≤ 102 then c - 87
  else 0

/-- Standard percent-decoding of a byte list: `%XY` becomes the byte with
hex value `XY`, every other byte passes through. -/
def urldecodeBytes : List Nat → List Nat
  | [] => []
  | [b] => [b]
  | [b, c] => [b, c]
  | b :: c :: d :: rest =>
    if b = 37 then (hexVal c * 16 + hexVal d) :: urldecodeBytes rest
    else b :: urldecodeBytes (c :: d :: rest)

/-! ## The OSS client -/

/-- Model of the `OSSClient` struct (src/src/lib.rs lines 30-35). -/
structure OSSClient where
  endpoint : String
  access_key_id : String
  access_key_secret : String
deriving DecidableEq

/-- Model of `OSSClient::generate_signed_url` (src/src/lib.rs lines
149-168).  `current_secs` stands for the external clock call
`get_current_secs()`; everything else is exactly the Rust control flow:
the URL is built by successive `push_str` calls. -/
def OSSClient.generate_signed_url (c : OSSClient) (verb bucket_name key : String)
    (expire_in_seconds : Nat) (is_https : Bool) (current_secs : Nat) : String :=
  let s1 := "" ++ (if is_https then "https://" else "http://")
  let s2 := s1 ++ (bucket_name ++ "." ++ c.endpoint ++ "/" ++ key)
  let es := expire_secs current_secs expire_in_seconds
  let s3 := s2 ++ "?Expires="
  let s4 := s3 ++ toString es
  let s5 := s4 ++ "&OSSAccessKeyId="
  let s6 := s5 ++ urlencode c.access_key_id
  let s7 := s6 ++ "&Signature="
  let to_be_signed := get_to_be_signed verb es bucket_name key
  let signature := to_base64 (calc_hmac_sha1 (strBytes c.access_key_secret)
    (strBytes to_be_signed))
  s7 ++ urlencode signature

/-- Model of `OSSClient::generate_signed_put_url` (src/src/lib.rs lines 137-139). -/
def OSSClient.generate_signed_put_url (c : OSSClient) (bucket_name key : String)
    (expire_in_seconds : Nat) (current_secs : Nat) : String :=
  c.generate_signed_url "PUT" bucket_name key expire_in_seconds true current_secs

/-- Model of `OSSClient::generate_signed_get_url` (src/src/lib.rs lines 141-143). -/
def OSSClient.generate_signed_get_url (c : OSSClient) (bucket_name key : String)
    (expire_in_seconds : Nat) (current_secs : Nat) : String :=
  c.generate_signed_url "GET" bucket_name key expire_in_seconds true current_secs

/-- Model of `OSSClient::generate_signed_delete_url` (src/src/lib.rs lines 145-147). -/
def OSSClient.generate_signed_delete_url (c : OSSClient) (bucket_name key : String)
    (expire_in_seconds : Nat) (current_secs : Nat) : String :=
  c.generate_signed_url "DELETE" bucket_name key expire_in_seconds true current_secs

/-! ## The HTTP operation wrappers

The HTTP collaborator (`reqwest`) is modelled as a function from the
requested URL to an `HttpResponse`; the current time is an explicit
parameter.  A PUT exchange is modelled by the request it sends. -/

/-- The observable part of an HTTP response: its status code, its body
(via the text and byte accessors), and its debug representation (the
`{:?}` rendering interpolated into error messages). -/
structure HttpResponse where
  status : Nat
  text : String
  bytes : List Nat
  debugRepr : String

/-- A one-shot PUT request: the signed URL it targets and the full body
it carries. -/
structure HttpPut where
  url : String
  body : List Nat

/-- Model of `OSSClient::put_file` (src/src/lib.rs lines 92-99): reads the
whole file into memory (the `file` argument stands for its byte content)
and sends it as the body of one PUT to a URL signed with the
caller-supplied `expire_in_seconds`. -/
def OSSClient.put_file (c : OSSClient) (bucket_name key : String)
    (expire_in_seconds : Nat) (file : List Nat) (current_secs : Nat) : HttpPut :=
  { url := c.generate_signed_put_url bucket_name key expire_in_seconds current_secs,
    body := file }

/-- Model of `OSSClient::put_file_content_bytes` (src/src/lib.rs lines
131-135): one PUT of the full byte payload to a URL signed with the fixed
expiry `30_u64`. -/
def OSSClient.put_file_content_bytes (c : OSSClient) (bucket_name key : String)
    (content_bytes : List Nat) (current_secs : Nat) : HttpPut :=
  { url := c.generate_signed_put_url bucket_name key 30 current_secs,
    body := content_bytes }

/-- Model of `OSSClient::put_file_content` (src/src/lib.rs lines 127-129):
the textual payload forwarded as its bytes. -/
def OSSClient.put_file_content (c : OSSClient) (bucket_name key : String)
    (content : String) (current_secs : Nat) : HttpPut :=
  c.put_file_content_bytes bucket_name key (strBytes content) current_secs

/-- Model of `OSSClient::get_file_content` (src/src/lib.rs lines 107-115):
sign a GET URL with the fixed 30-second expiry, issue the request, then
classify: 404 becomes `ok none`, 200 becomes `ok (some text)`, anything
else an error naming the bucket, the key and the response. -/
def OSSClient.get_file_content (c : OSSClient) (bucket_name key : String)
    (current_secs : Nat) (http : String → HttpResponse) :
    Except String (Option String) :=
  let response := http (c.generate_signed_get_url bucket_name key 30 current_secs)
  if response.status = 404 then .ok none
  else if response.status = 200 then .ok (some response.text)
  else .error ("Error in read: " ++ bucket_name ++ "/" ++ key ++ ", returns: " ++
    response.debugRepr)

/-- Model of `OSSClient::get_file_content_bytes` (src/src/lib.rs lines
117-125): as `get_file_content` but returning the raw body bytes. -/
def OSSClient.get_file_content_bytes (c : OSSClient) (bucket_name key : String)
    (current_secs : Nat) (http : String → HttpResponse) :
    Except String (Option (List Nat)) :=
  let response := http (c.generate_signed_get_url bucket_name key 30 current_secs)
  if response.status = 404 then .ok none
  else if response.status = 200 then .ok (some response.bytes)
  else .error ("Error in read: " ++ bucket_name ++ "/" ++ key ++ ", returns: " ++
    response.debugRepr)

/-! ## JSON construction

The `json` crate's parsed value (`JsonValue`) is modelled by `Json`;
`OSSClient::from_json` is modelled from the point after `json::parse`
succeeded (a parse failure is an error of the external parser before the
code under scrutiny runs). -/

/-- Parsed JSON values: the `json` crate's `JsonValue` data model (its two
string representations are modelled by the single constructor `str`). -/
inductive Json where
  | null
  | bool (b : Bool)
  | num (n : Int)
  | str (s : String)
  | arr (items : List Json)
  | obj (members : List (String × Json))

/-- Model of `JsonValue::is_object`. -/
def Json.isObject : Json → Bool
  | .obj _ => true
  | _ => false

/-- Model of the `json` crate's indexing `json_value[key]`: the member's
value in an object, `Null` when absent or when the value is not an
object. -/
def Json.index (j : Json) (k : String) : Json :=
  match j with
  | .obj members => (members.lookup k).getD .null
  | _ => .null

/-- Model of `JsonValue::as_str`: `some` exactly on strings. -/
def Json.asStr : Json → Option String
  | .str s => some s
  | _ => none

/-- Model of `OSSClient::from_json` (src/src/lib.rs lines 74-89), after
`json::parse`: reject non-objects, read the three fields with
`as_str().unwrap_or_default()`, reject if any is empty, else store them. -/
def OSSClient.from_json (j : Json) : Except String OSSClient :=
  if !j.isObject then .error "JSON format erorr"
  else
    let endpoint := ((j.index "endpoint").asStr).getD ""
    let access_key_id := ((j.index "accessKeyId").asStr).getD ""
    let access_key_secret := ((j.index "accessKeySecret").asStr).getD ""
    if endpoint = "" ∨ access_key_id = "" ∨ access_key_secret = "" then
      .error "Endpoint, access_key_id or access_key_secret cannot be empty"
    else .ok ⟨endpoint, access_key_id, access_key_secret⟩

theorem string_append_assoc (a b c : String) : a ++ b ++ c = a ++ (b ++ c) := by
  apply String.ext
  simp [String.data_append, List.append_assoc]

/-- The signed URL, flattened: scheme, host path inserted verbatim, then
the three query fields in order, the credential-derived two of them
percent-encoded. -/
theorem generate_signed_url_spec (c : OSSClient) (verb bucket key : String)
    (e : Nat) (https : Bool) (t : Nat) :
    c.generate_signed_url verb bucket key e https t =
      (if https then "https://" else "http://") ++ bucket ++ "." ++ c.endpoint ++
      "/" ++ key ++ "?Expires=" ++ toString (expire_secs t e) ++
      "&OSSAccessKeyId=" ++ urlencode c.access_key_id ++
      "&Signature=" ++ urlencode (to_base64 (calc_hmac_sha1
        (strBytes c.access_key_secret)
        (strBytes (get_to_be_signed verb (expire_secs t e) bucket key)))) := by
  apply String.ext
  cases https <;>
    simp [OSSClient.generate_signed_url, String.data_append, List.append_assoc]

/-- Every SHA-1 digest is 20 bytes. -/
theorem sha1_length (msg : List Nat) : (sha1 msg).length = 20 := by
  simp [sha1, wordBytes]

/-- Every HMAC-SHA1 MAC is 20 bytes. -/
theorem calc_hmac_sha1_length (key message : List Nat) :
    (calc_hmac_sha1 key message).length = 20 := by
  simp [calc_hmac_sha1, sha1_length]

/-! ## Lemmas about the UTF-8 and percent-encoding layers -/

/-- Every code point of a `Char` is below `0x110000`. -/
theorem char_toNat_lt (c : Char) : c.toNat < 1114112 := by
  rcases c.valid with h | ⟨_, h⟩
  · exact Nat.lt_trans h (by decide)
  · exact h

/-- `Char.ofNat` round-trips on code points below the surrogate range. -/
theorem char_toNat_ofNat (n : Nat) (h : n < 55296) : (Char.ofNat n).toNat = n := by
  rw [Char.ofNat, dif_pos (Or.inl h)]
  rfl

/-- UTF-8 encoding of an in-range code point yields bytes. -/
theorem utf8Bytes_lt (n : Nat) (hn : n < 4194304) :
    ∀ b ∈ utf8Bytes n, b < 256 := by
  intro b hb
  simp only [utf8Bytes] at hb
  split_ifs at hb <;> simp at hb <;> omega

/-- All entries of `strBytes` are bytes. -/
theorem strBytes_lt (s : String) : ∀ b ∈ strBytes s, b < 256 := by
  intro b hb
  simp only [strBytes, List.mem_flatMap] at hb
  obtain ⟨ch, -, hb⟩ := hb
  exact utf8Bytes_lt ch.toNat (Nat.lt_trans (char_toNat_lt ch) (by decide)) b hb

/-- A byte kept verbatim by the percent-encoder is printable ASCII. -/
theorem isUnreserved_lt (b : Nat) (h : isUnreserved b = true) : b < 128 := by
  simp [isUnreserved] at h
  omega

/-- The percent sign is never kept verbatim. -/
theorem isUnreserved_ne_percent (b : Nat) (h : isUnreserved b = true) : b ≠ 37 := by
  simp [isUnreserved] at h
  omega

/-- Percent-encoded output is pure ASCII. -/
theorem urlencodeBytes_lt (bs : List Nat) (hbs : ∀ b ∈ bs, b < 256) :
    ∀ x ∈ urlencodeBytes bs, x < 128 := by
  induction bs with
  | nil => intro x hx; simp [urlencodeBytes] at hx
  | cons b rest ih =>
    intro x hx
    have hb : b < 256 := hbs b (by simp)
    simp only [urlencodeBytes, List.mem_append] at hx
    rcases hx with hx | hx
    · split_ifs at hx with hu
      · simp at hx; exact hx ▸ isUnreserved_lt b hu
      · simp [hexDigit] at hx
        split_ifs at hx <;> omega
    · exact ih (fun y hy => hbs y (by simp [hy])) x hx

set_option maxRecDepth 10000 in
/-- The two uppercase hex digits of a byte decode back to it. -/
theorem hex_roundtrip : ∀ b, b < 256 →
    hexVal (hexDigit (b / 16)) * 16 + hexVal (hexDigit (b % 16)) = b := by
  decide

/-- Percent-decoding steps over a byte that is not a percent sign. -/
theorem urldecodeBytes_cons (b : Nat) (t : List Nat) (hb : b ≠ 37) :
    urldecodeBytes (b :: t) = b :: urldecodeBytes t := by
  match t with
  | [] => rfl
  | [c] => rfl
  | c :: d :: rest => simp [urldecodeBytes, hb]

/-- Percent-decoding inverts percent-encoding on byte lists. -/
theorem urldecode_urlencode (bs : List Nat) (hbs : ∀ b ∈ bs, b < 256) :
    urldecodeBytes (urlencodeBytes bs) = bs := by
  induction bs with
  | nil => rfl
  | cons b rest ih =>
    have hb : b < 256 := hbs b (by simp)
    have ihr := ih (fun y hy => hbs y (by simp [hy]))
    simp only [urlencodeBytes]
    split_ifs with hu
    · rw [List.singleton_append,
        urldecodeBytes_cons b _ (isUnreserved_ne_percent b hu), ihr]
    · show urldecodeBytes (37 :: hexDigit (b / 16) :: hexDigit (b % 16) ::
        urlencodeBytes rest) = b :: rest
      simp [urldecodeBytes, ihr, hex_roundtrip b hb]

/-- `strBytes` recovers the bytes of an ASCII `asciiString`. -/
theorem strBytes_asciiString (bs : List Nat) (hbs : ∀ b ∈ bs, b < 128) :
    strBytes (asciiString bs) = bs := by
  induction bs with
  | nil => rfl
  | cons b rest ih =>
    have hb : b < 128 := hbs b (by simp)
    have ihr := ih (fun y hy => hbs y (by simp [hy]))
    show (Char.ofNat b :: rest.map Char.ofNat).flatMap (fun ch => utf8Bytes ch.toNat) = b :: rest
    rw [List.flatMap_cons]
    have h1 : (Char.ofNat b).toNat = b := char_toNat_ofNat b (by omega)
    have h2 : utf8Bytes b = [b] := by simp [utf8Bytes, hb]
    rw [h1, h2]
    simpa [strBytes, asciiString] using ihr

/-- C1: the canonical string is the verb, three consecutive newlines, the
decimal expiry, one newline, then `/bucket/key`, with no trailing newline;
at verb `PUT`, expiry `1700000000`, bucket `mybucket`, key `path/to/obj.txt`
it is exactly `"PUT\n\n\n1700000000\n/mybucket/path/to/obj.txt"`. -/
theorem canonical_string_exactness :
    (∀ (verb : String) (e : Nat) (bucket key : String),
      get_to_be_signed verb e bucket key =
        verb ++ "\n\n\n" ++ toString e ++ "\n" ++ "/" ++ bucket ++ "/" ++ key) ∧
    get_to_be_signed "PUT" 1700000000 "mybucket" "path/to/obj.txt" =
      "PUT\n\n\n1700000000\n/mybucket/path/to/obj.txt" := by
  constructor
  · intro verb e bucket key
    apply String.ext
    simp [get_to_be_signed, String.data_append, List.append_assoc]
  · rfl

/-- C2: the signed URL is exactly
`<scheme>://<bucket>.<endpoint>/<key>?Expires=<expiry>&OSSAccessKeyId=<urlencoded id>&Signature=<urlencoded base64 signature>`,
with scheme `https` when the flag is true and `http` otherwise, and the
query fields in exactly this order. -/
theorem signed_url_exact_shape :
    ∀ (c : OSSClient) (verb bucket key : String) (e : Nat) (https : Bool) (t : Nat),
      c.generate_signed_url verb bucket key e https t =
        (if https then "https://" else "http://") ++ bucket ++ "." ++ c.endpoint ++
        "/" ++ key ++ "?Expires=" ++ toString (expire_secs t e) ++
        "&OSSAccessKeyId=" ++ urlencode c.access_key_id ++
        "&Signature=" ++ urlencode (to_base64 (calc_hmac_sha1
          (strBytes c.access_key_secret)
          (strBytes (get_to_be_signed verb (expire_secs t e) bucket key)))) :=
  fun c verb bucket key e https t => generate_signed_url_spec c verb bucket key e https t

set_option maxRecDepth 1000000 in
/-- C3: the signature placed in the URL is the padded standard base64 of
the HMAC of the canonical string's bytes under the secret's bytes; the MAC
is always 20 bytes (the 160-bit SHA-1 primitive); and on the fixed test
vector (secret `testsecret`, the canonical PUT string) the output equals
the independently computed reference value. -/
theorem hmac_signature_spec :
    (∀ (c : OSSClient) (verb bucket key : String) (e : Nat) (https : Bool) (t : Nat),
      ∃ pre, c.generate_signed_url verb bucket key e https t =
        pre ++ "&Signature=" ++ urlencode (to_base64 (calc_hmac_sha1
          (strBytes c.access_key_secret)
          (strBytes (get_to_be_signed verb (expire_secs t e) bucket key))))) ∧
    (∀ key message, (calc_hmac_sha1 key message).length = 20) ∧
    to_base64 (calc_hmac_sha1 (strBytes "testsecret")
      (strBytes "PUT\n\n\n1700000000\n/mybucket/path/to/obj.txt")) =
      "ykkdotPot1GBCHRi3zVTAXA56GA=" := by
  refine ⟨?_, calc_hmac_sha1_length, by decide⟩
  intro c verb bucket key e https t
  exact ⟨(if https then "https://" else "http://") ++ bucket ++ "." ++ c.endpoint ++
    "/" ++ key ++ "?Expires=" ++ toString (expire_secs t e) ++
    "&OSSAccessKeyId=" ++ urlencode c.access_key_id,
    generate_signed_url_spec c verb bucket key e https t⟩

/-- C4 (counterexample): at current time `1700000000` and
`expire_in_seconds = 2 ^ 64 - 1`, the `u64` addition wraps, so the
computed expiry differs from the mathematical sum `T + e`. -/
theorem expiry_overflow_counterexample :
    expire_secs 1700000000 (2 ^ 64 - 1) ≠ 1700000000 + (2 ^ 64 - 1) := by
  decide

/-- C4 (amended): the expiry is `(T + e) mod 2 ^ 64`, which equals `T + e`
whenever the 64-bit addition does not overflow; the URL embeds exactly
that value in its `Expires=` field. -/
theorem expiry_resolution (t e : Nat) (h : t + e < 2 ^ 64) :
    expire_secs t e = t + e ∧
    ∀ (c : OSSClient) (verb bucket key : String) (https : Bool),
      ∃ pre post, c.generate_signed_url verb bucket key e https t =
        pre ++ "?Expires=" ++ toString (t + e) ++ post := by
  have hes : expire_secs t e = t + e := Nat.mod_eq_of_lt h
  refine ⟨hes, ?_⟩
  intro c verb bucket key https
  refine ⟨(if https then "https://" else "http://") ++ bucket ++ "." ++ c.endpoint ++
    "/" ++ key,
    "&OSSAccessKeyId=" ++ urlencode c.access_key_id ++
    "&Signature=" ++ urlencode (to_base64 (calc_hmac_sha1
      (strBytes c.access_key_secret)
      (strBytes (get_to_be_signed verb (expire_secs t e) bucket key)))), ?_⟩
  rw [generate_signed_url_spec, hes]
  apply String.ext
  simp [String.data_append, List.append_assoc]

/-- C4 (witness): at `T = 1700000000`, `e = 60` the resolved expiry is
`1700000060`. -/
theorem expiry_resolution_witness : expire_secs 1700000000 60 = 1700000060 :=
  (expiry_resolution 1700000000 60 (by decide)).1

set_option maxRecDepth 1000000 in
/-- C8 (counterexample): `put_file_content_bytes` has no expiry parameter
and signs with the fixed expiry `30`; its URL is not the URL signed for a
caller-supplied expiry such as `100`. -/
theorem put_fixed_expiry_counterexample :
    ((OSSClient.mk "ep" "ak" "sk").put_file_content_bytes "b" "k" [] 0).url ≠
    (OSSClient.mk "ep" "ak" "sk").generate_signed_put_url "b" "k" 100 0 := by
  decide

/-- C8 (amended): `put_file` signs its PUT URL with the caller-supplied
`expire_in_seconds` and sends the full file bytes as the body in one shot;
`put_file_content_bytes` also sends the full byte payload in one shot, but
signs with the fixed 30-second expiry (it takes no expiry parameter). -/
theorem put_one_shot_spec :
    ∀ (c : OSSClient) (bucket key : String) (file : List Nat) (e t : Nat)
      (content_bytes : List Nat),
      c.put_file bucket key e file t =
        ⟨c.generate_signed_put_url bucket key e t, file⟩ ∧
      c.put_file_content_bytes bucket key content_bytes t =
        ⟨c.generate_signed_put_url bucket key 30 t, content_bytes⟩ :=
  fun _ _ _ _ _ _ _ => ⟨rfl, rfl⟩

/-- C9: the signature is a pure function of verb, bucket, key, expiry and
secret: two clients agreeing on the secret (their endpoints, key ids and
scheme flags may differ) embed the identical signature value in their
URLs. -/
theorem signature_determinism (c₁ c₂ : OSSClient) (verb bucket key : String)
    (e : Nat) (h₁ h₂ : Bool) (t : Nat)
    (hsec : c₁.access_key_secret = c₂.access_key_secret) :
    ∃ sig,
      c₁.generate_signed_url verb bucket key e h₁ t =
        (if h₁ then "https://" else "http://") ++ bucket ++ "." ++ c₁.endpoint ++
        "/" ++ key ++ "?Expires=" ++ toString (expire_secs t e) ++
        "&OSSAccessKeyId=" ++ urlencode c₁.access_key_id ++
        "&Signature=" ++ sig ∧
      c₂.generate_signed_url verb bucket key e h₂ t =
        (if h₂ then "https://" else "http://") ++ bucket ++ "." ++ c₂.endpoint ++
        "/" ++ key ++ "?Expires=" ++ toString (expire_secs t e) ++
        "&OSSAccessKeyId=" ++ urlencode c₂.access_key_id ++
        "&Signature=" ++ sig := by
  refine ⟨urlencode (to_base64 (calc_hmac_sha1 (strBytes c₁.access_key_secret)
    (strBytes (get_to_be_signed verb (expire_secs t e) bucket key)))),
    generate_signed_url_spec c₁ verb bucket key e h₁ t, ?_⟩
  rw [hsec]
  exact generate_signed_url_spec c₂ verb bucket key e h₂ t

/-- C9 (witness): two clients sharing the secret `sk` but with different
endpoints and key ids embed the same signature. -/
theorem signature_determinism_witness :
    ∃ sig,
      (OSSClient.mk "ep1" "ak1" "sk").generate_signed_url "GET" "b" "k" 60 true 0 =
        (if true then "https://" else "http://") ++ "b" ++ "." ++
        (OSSClient.mk "ep1" "ak1" "sk").endpoint ++
        "/" ++ "k" ++ "?Expires=" ++ toString (expire_secs 0 60) ++
        "&OSSAccessKeyId=" ++ urlencode (OSSClient.mk "ep1" "ak1" "sk").access_key_id ++
        "&Signature=" ++ sig ∧
      (OSSClient.mk "ep2" "ak2" "sk").generate_signed_url "GET" "b" "k" 60 false 0 =
        (if false then "https://" else "http://") ++ "b" ++ "." ++
        (OSSClient.mk "ep2" "ak2" "sk").endpoint ++
        "/" ++ "k" ++ "?Expires=" ++ toString (expire_secs 0 60) ++
        "&OSSAccessKeyId=" ++ urlencode (OSSClient.mk "ep2" "ak2" "sk").access_key_id ++
        "&Signature=" ++ sig :=
  signature_determinism (OSSClient.mk "ep1" "ak1" "sk") (OSSClient.mk "ep2" "ak2" "sk")
    "GET" "b" "k" 60 true false 0 rfl

/-- C10: within one call, a single expiry value feeds both the `Expires=`
query field and the canonical string whose MAC becomes the `Signature=`
field — the published and the signed expiry agree. -/
theorem published_and_signed_expiry_agree :
    ∀ (c : OSSClient) (verb bucket key : String) (e : Nat) (https : Bool) (t : Nat),
      ∃ es, es = expire_secs t e ∧
        c.generate_signed_url verb bucket key e https t =
          (if https then "https://" else "http://") ++ bucket ++ "." ++ c.endpoint ++
          "/" ++ key ++ "?Expires=" ++ toString es ++
          "&OSSAccessKeyId=" ++ urlencode c.access_key_id ++
          "&Signature=" ++ urlencode (to_base64 (calc_hmac_sha1
            (strBytes c.access_key_secret)
            (strBytes (get_to_be_signed verb es bucket key)))) :=
  fun c verb bucket key e https t =>
    ⟨expire_secs t e, rfl, generate_signed_url_spec c verb bucket key e https t⟩

/-- C5: the key id and signature are placed in the query percent-encoded
(standard query-component encoding) while bucket, endpoint and key are
inserted verbatim; URL-decoding an encoded value recovers its exact bytes;
and `+`, `/`, `=` are percent-encoded. -/
theorem percent_encoding_roundtrip :
    (∀ (c : OSSClient) (verb bucket key : String) (e : Nat) (https : Bool) (t : Nat),
      c.generate_signed_url verb bucket key e https t =
        (if https then "https://" else "http://") ++ bucket ++ "." ++ c.endpoint ++
        "/" ++ key ++ "?Expires=" ++ toString (expire_secs t e) ++
        "&OSSAccessKeyId=" ++ urlencode c.access_key_id ++
        "&Signature=" ++ urlencode (to_base64 (calc_hmac_sha1
          (strBytes c.access_key_secret)
          (strBytes (get_to_be_signed verb (expire_secs t e) bucket key))))) ∧
    (∀ s : String, urldecodeBytes (strBytes (urlencode s)) = strBytes s) ∧
    urlencode "+/=" = "%2B%2F%3D" := by
  refine ⟨fun c verb bucket key e https t =>
    generate_signed_url_spec c verb bucket key e https t, ?_, by decide⟩
  intro s
  have h256 := strBytes_lt s
  have h128 := urlencodeBytes_lt (strBytes s) h256
  calc urldecodeBytes (strBytes (urlencode s))
      = urldecodeBytes (urlencodeBytes (strBytes s)) := by
        rw [urlencode, strBytes_asciiString _ h128]
    _ = strBytes s := urldecode_urlencode _ h256

/-- C6: `get_file_content` and `get_file_content_bytes` classify the HTTP
collaborator's response to the signed GET URL by status: 404 is the
success-path outcome `ok none`, 200 is `ok (some body)` (text or bytes by
accessor), anything else an error naming bucket, key and the response. -/
theorem status_classification (c : OSSClient) (bucket key : String) (t : Nat)
    (http : String → HttpResponse) (r : HttpResponse)
    (hr : http (c.generate_signed_get_url bucket key 30 t) = r) :
    (r.status = 404 →
      c.get_file_content bucket key t http = .ok none ∧
      c.get_file_content_bytes bucket key t http = .ok none) ∧
    (r.status = 200 →
      c.get_file_content bucket key t http = .ok (some r.text) ∧
      c.get_file_content_bytes bucket key t http = .ok (some r.bytes)) ∧
    (r.status ≠ 404 → r.status ≠ 200 →
      c.get_file_content bucket key t http =
        .error ("Error in read: " ++ bucket ++ "/" ++ key ++ ", returns: " ++
          r.debugRepr) ∧
      c.get_file_content_bytes bucket key t http =
        .error ("Error in read: " ++ bucket ++ "/" ++ key ++ ", returns: " ++
          r.debugRepr)) := by
  unfold OSSClient.get_file_content OSSClient.get_file_content_bytes
  rw [hr]
  refine ⟨fun h404 => ?_, fun h200 => ?_, fun hn4 hn2 => ?_⟩ <;> simp_all

/-- C6 (witness): a stubbed collaborator answering 404, 200 and 500. -/
theorem status_classification_witness :
    (OSSClient.mk "ep" "ak" "sk").get_file_content "b" "k" 0
      (fun _ => ⟨404, "", [], "resp"⟩) = .ok none ∧
    (OSSClient.mk "ep" "ak" "sk").get_file_content "b" "k" 0
      (fun _ => ⟨200, "body", [1], "resp"⟩) = .ok (some "body") ∧
    (OSSClient.mk "ep" "ak" "sk").get_file_content_bytes "b" "k" 0
      (fun _ => ⟨500, "", [], "resp"⟩) =
      .error ("Error in read: " ++ "b" ++ "/" ++ "k" ++ ", returns: " ++ "resp") :=
  ⟨((status_classification (OSSClient.mk "ep" "ak" "sk") "b" "k" 0 _
      ⟨404, "", [], "resp"⟩ rfl).1 rfl).1,
   ((status_classification (OSSClient.mk "ep" "ak" "sk") "b" "k" 0 _
      ⟨200, "body", [1], "resp"⟩ rfl).2.1 rfl).1,
   ((status_classification (OSSClient.mk "ep" "ak" "sk") "b" "k" 0 _
      ⟨500, "", [], "resp"⟩ rfl).2.2 (by decide) (by decide)).2⟩

/-- C7: construction from parsed JSON succeeds exactly when the value is
an object whose `endpoint`, `accessKeyId` and `accessKeySecret` members
are present, are strings, and are non-empty; on success the stored fields
are exactly those member values. -/
theorem from_json_validation (j : Json) :
    ((∃ c, OSSClient.from_json j = .ok c) ↔
      (j.isObject = true ∧
       (∃ s, (j.index "endpoint").asStr = some s ∧ s ≠ "") ∧
       (∃ s, (j.index "accessKeyId").asStr = some s ∧ s ≠ "") ∧
       (∃ s, (j.index "accessKeySecret").asStr = some s ∧ s ≠ ""))) ∧
    (∀ c, OSSClient.from_json j = .ok c →
      (j.index "endpoint").asStr = some c.endpoint ∧
      (j.index "accessKeyId").asStr = some c.access_key_id ∧
      (j.index "accessKeySecret").asStr = some c.access_key_secret) := by
  have opt_ne : ∀ o : Option String,
      ((∃ s, o = some s ∧ s ≠ "") ↔ o.getD "" ≠ "") := by
    intro o; cases o <;> simp
  have opt_eq : ∀ o : Option String, o.getD "" ≠ "" → o = some (o.getD "") := by
    intro o h; cases o <;> simp_all
  cases hobj : j.isObject with
  | false =>
    constructor
    · constructor
      · rintro ⟨c, hc⟩
        simp [OSSClient.from_json, hobj] at hc
      · rintro ⟨h, -⟩
        simp [hobj] at h
    · intro c hc
      simp [OSSClient.from_json, hobj] at hc
  | true =>
    have hfj : OSSClient.from_json j =
        (if ((j.index "endpoint").asStr).getD "" = "" ∨
            ((j.index "accessKeyId").asStr).getD "" = "" ∨
            ((j.index "accessKeySecret").asStr).getD "" = "" then
          .error "Endpoint, access_key_id or access_key_secret cannot be empty"
        else .ok ⟨((j.index "endpoint").asStr).getD "",
          ((j.index "accessKeyId").asStr).getD "",
          ((j.index "accessKeySecret").asStr).getD ""⟩) := by
      simp [OSSClient.from_json, hobj]
    rw [hfj]
    split_ifs with hcond
    · constructor
      · constructor
        · rintro ⟨c, hc⟩
          simp at hc
        · rintro ⟨-, h1, h2, h3⟩
          rw [opt_ne] at h1 h2 h3
          tauto
      · intro c hc
        simp at hc
    · push_neg at hcond
      obtain ⟨h1, h2, h3⟩ := hcond
      constructor
      · constructor
        · intro _
          exact ⟨rfl, (opt_ne _).mpr h1, (opt_ne _).mpr h2, (opt_ne _).mpr h3⟩
        · intro _
          exact ⟨_, rfl⟩
      · intro c hc
        obtain rfl : OSSClient.mk (((j.index "endpoint").asStr).getD "")
            (((j.index "accessKeyId").asStr).getD "")
            (((j.index "accessKeySecret").asStr).getD "") = c := by
          simpa using hc
        exact ⟨opt_eq _ h1, opt_eq _ h2, opt_eq _ h3⟩

/-- C7 (witness): a well-formed object constructs a client whose fields
are the member values. -/
theorem from_json_validation_witness :
    (Json.index (Json.obj [("endpoint", Json.str "ep"),
      ("accessKeyId", Json.str "ak"),
      ("accessKeySecret", Json.str "sk")]) "endpoint").asStr = some "ep" ∧
    (Json.index (Json.obj [("endpoint", Json.str "ep"),
      ("accessKeyId", Json.str "ak"),
      ("accessKeySecret", Json.str "sk")]) "accessKeyId").asStr = some "ak" ∧
    (Json.index (Json.obj [("endpoint", Json.str "ep"),
      ("accessKeyId", Json.str "ak"),
      ("accessKeySecret", Json.str "sk")]) "accessKeySecret").asStr = some "sk" :=
  (from_json_validation _).2 ⟨"ep", "ak", "sk"⟩ rfl

end OSS
